import Mathlib

/-!
Verification development for the GPTImageDescriber batch metadata pipeline.

The definitions below are a shallow embedding of the Python sources:

* `src/src/response_parser.py`      — `parse_response` (marker scanning parser)
* `src/src/image_describer.py`      — `ImagesDescriber.add_metadata`,
                                      `ImagesDescriber.remove_backup_file`,
                                      and the inline elapsed-time formatter
* `src/src/files_filter.py`         — `filter_files_by_extension`
* `src/src/services/process_timer.py` — `execution_timer`

Strings are modelled as `List Char` (Python `str` over the ASCII fragment the
code manipulates); the filesystem is a flat association list from paths to
file data; failure of external steps (network call, PIL verification, the
IPTC container library, `shutil.move`) is driven by an explicit per-item
oracle so that every control path of the source is represented.
-/

/-! ## Python string primitives -/

/-- Characters stripped by Python `str.strip()` with no argument
(the ASCII whitespace class used by `str.isspace`). -/
def isPyWs (c : Char) : Bool :=
  c == ' ' || c == '\t' || c == '\n' || c == '\r' || c == '\x0b' || c == '\x0c'

/-- Membership in `string.punctuation ++ string.digits`: the character class
deleted by the parser's `str.translate` table (ASCII 33–47, 48–57, 58–64,
91–96, 123–126). -/
def isPunctOrDigit (c : Char) : Bool :=
  let n := c.toNat
  (33 ≤ n && n ≤ 64) || (91 ≤ n && n ≤ 96) || (123 ≤ n && n ≤ 126)

/-- Python `s.translate(str.maketrans('', '', string.punctuation + string.digits))`. -/
def pyTranslate (s : List Char) : List Char :=
  s.filter (fun c => !(isPunctOrDigit c))

/-- Python `s.strip()`. -/
def pyStrip (s : List Char) : List Char :=
  ((s.dropWhile isPyWs).reverse.dropWhile isPyWs).reverse

/-- Python `s.lower()` (ASCII fragment). -/
def pyLower (s : List Char) : List Char :=
  s.map Char.toLower

/-- Does `pat` occur at the very start of `s`? -/
def matchesAt : List Char → List Char → Bool
  | [], _ => true
  | _ :: _, [] => false
  | p :: ps, c :: cs => p == c && matchesAt ps cs

/-- Index of the first occurrence of `pat` in `s`, if any
(the scan underlying Python `str.find`). -/
def subFind (pat : List Char) : List Char → Option Nat
  | [] => if matchesAt pat [] then some 0 else none
  | c :: rest =>
    if matchesAt pat (c :: rest) then some 0
    else (subFind pat rest).map (· + 1)

/-- Python `s.find(pat)`: first index, or `-1` when absent. -/
def pyFind (s pat : List Char) : Int :=
  match subFind pat s with
  | some i => (i : Int)
  | none => -1

/-- Python `s[a:b]` for the non-negative slice bounds produced by the parser
(indices clamp to the length; an empty list results when `b ≤ a`). -/
def pySlice (s : List Char) (a b : Int) : List Char :=
  (s.take b.toNat).drop a.toNat

/-- Python `s[a:]` for non-negative `a`. -/
def pyDropFrom (s : List Char) (a : Int) : List Char :=
  s.drop a.toNat

/-- Delimiter class of the keyword splitter `re.split(r'[,\s]+', ...)`. -/
def isKwDelim (c : Char) : Bool :=
  c == ',' || isPyWs c

/-- Accumulator pass for `kwTokens`; `acc` carries the current token reversed. -/
def kwTokensAux : List Char → List Char → List (List Char)
  | acc, [] => if acc.isEmpty then [] else [acc.reverse]
  | acc, c :: rest =>
    if isKwDelim c then
      if acc.isEmpty then kwTokensAux [] rest
      else acc.reverse :: kwTokensAux [] rest
    else kwTokensAux (c :: acc) rest

/-- Maximal runs of non-delimiter characters: the non-empty tokens produced by
`re.split(r'[,\s]+', s)` after the `if kw` filter drops empty border tokens. -/
def kwTokens (s : List Char) : List (List Char) :=
  kwTokensAux [] s

/-- Python `s.endswith(suffix)`. -/
def endsWithL (s suffix : List Char) : Bool :=
  matchesAt suffix.reverse s.reverse

/-! ## ResponseParser (`src/src/response_parser.py`) -/

/-- The three section markers, lower-cased as the parser searches them. -/
def markerTitle : List Char := "title".toList

def markerDescription : List Char := "description".toList

def markerKeywords : List Char := "keywords".toList

/-- The `GeneratedDescription` triple produced by the parser. -/
structure ParsedFields where
  title : List Char
  description : List Char
  keywords : List (List Char)
deriving DecidableEq, Repr

/-- `'No Title'`. -/
def defaultTitle : List Char := "No Title".toList

/-- `'No Description'`. -/
def defaultDescription : List Char := "No Description".toList

/-- The `title` branch of `parse_response`: slice from just past the marker to
`description_index` when it exceeds `title_index`, else to `keywords_index`
when it exceeds `title_index`, else to the end; then translate and strip. -/
def titleSlice (content : List Char) (titleIndex descriptionIndex keywordsIndex : Int) :
    List Char :=
  let startIndex := titleIndex + (markerTitle.length : Int)
  let endIndex :=
    if descriptionIndex > titleIndex then descriptionIndex
    else if keywordsIndex > titleIndex then keywordsIndex
    else (content.length : Int)
  pyStrip (pyTranslate (pySlice content startIndex endIndex))

/-- The `description` branch of `parse_response`. -/
def descriptionSlice (content : List Char) (descriptionIndex keywordsIndex : Int) :
    List Char :=
  let startIndex := descriptionIndex + (markerDescription.length : Int)
  let endIndex :=
    if keywordsIndex > descriptionIndex then keywordsIndex
    else (content.length : Int)
  pyStrip (pyTranslate (pySlice content startIndex endIndex))

/-- The `keywords` branch of `parse_response`: slice to the end, translate,
lower-case, split on comma/whitespace runs, strip each token, keep non-empty
tokens. -/
def keywordsSlice (content : List Char) (keywordsIndex : Int) : List (List Char) :=
  let startIndex := keywordsIndex + (markerKeywords.length : Int)
  let keywordsString := pyDropFrom content startIndex
  (kwTokens (pyLower (pyTranslate keywordsString))).map pyStrip

/-- The content-scanning body of `parse_response` (lines 30–74 of
`src/src/response_parser.py`): find the first index of each marker in the
lower-cased text, then fill each field from its slice, defaulting when the
marker is absent. -/
def parseContent (content : List Char) : ParsedFields :=
  let contentLower := pyLower content
  let titleIndex := pyFind contentLower markerTitle
  let descriptionIndex := pyFind contentLower markerDescription
  let keywordsIndex := pyFind contentLower markerKeywords
  { title :=
      if titleIndex ≠ -1 then titleSlice content titleIndex descriptionIndex keywordsIndex
      else defaultTitle
    description :=
      if descriptionIndex ≠ -1 then descriptionSlice content descriptionIndex keywordsIndex
      else defaultDescription
    keywords :=
      if keywordsIndex ≠ -1 then keywordsSlice content keywordsIndex
      else [] }

/-- A Python value as far as the parser's dictionary navigation observes it. -/
inductive PyObj where
  | pstr (s : List Char)
  | plist (xs : List PyObj)
  | pdict (entries : List (List Char × PyObj))
  | pnone

/-- First-match dictionary lookup. -/
def dictFind : List (List Char × PyObj) → List Char → Option PyObj
  | [], _ => none
  | (k, v) :: rest, key => if k = key then some v else dictFind rest key

/-- Python `obj[key]`: `none` models the `KeyError`/`TypeError` raised when the
receiver is not a dictionary holding the key. -/
def getItem (o : PyObj) (key : List Char) : Option PyObj :=
  match o with
  | .pdict d => dictFind d key
  | _ => none

/-- Python `obj.get(key)`: succeeds with the value (or `None`) on a dictionary,
and `none` models the `AttributeError` raised on any other receiver. -/
def pyGet (o : PyObj) (key : List Char) : Option PyObj :=
  match o with
  | .pdict d =>
    match dictFind d key with
    | some v => some v
    | none => some .pnone
  | _ => none

/-- `gpt_response['choices'][0].get('message').get('content')` followed by the
first use `content.lower()`: `some s` when every step succeeds on a string, and
`none` when any step raises (missing key, empty list, non-dictionary receiver,
or a non-string content). -/
def extractContent (resp : List (List Char × PyObj)) : Option (List Char) :=
  match dictFind resp "choices".toList with
  | some (.plist (c0 :: _)) =>
    match pyGet c0 "message".toList with
    | some msgObj =>
      match pyGet msgObj "content".toList with
      | some (.pstr s) => some s
      | _ => none
    | none => none
  | _ => none

/-- Outcome of a Python call: `sys.exit` (a `SystemExit`, which `except
Exception` does not catch), an ordinary exception, or a returned value. -/
inductive PyOutcome (α : Type) where
  | exited (code : Nat)
  | raised
  | returned (v : α)
deriving DecidableEq, Repr

/-- `parse_response(gpt_response)` of `src/src/response_parser.py`: an `error`
key triggers `logger.error(gpt_response.get('error')['message'])` — whose
subscript itself raises when the error value carries no `message` — followed by
`sys.exit(1)`; otherwise the `try` body extracts the content and scans it, any
exception being caught and logged, leaving the implicit return value `None`. -/
def parse_response (resp : List (List Char × PyObj)) : PyOutcome (Option ParsedFields) :=
  match dictFind resp "error".toList with
  | some errVal =>
    match getItem errVal "message".toList with
    | some _ => .exited 1
    | none => .raised
  | none =>
    match extractContent resp with
    | some content => .returned (some (parseContent content))
    | none => .returned none

/-! ## Elapsed-time formatting -/

/-- Which of the three wordings the end-of-run summary uses. -/
inductive TimeFormat where
  | secondsOnly
  | minutesSeconds
  | hoursMinutesSeconds
deriving DecidableEq, Repr

/-- Branch selection of the summary inlined in `ImagesDescriber.add_metadata`
(lines 292–319): `if process_time < 60 ... elif 60 < process_time < 3600 ...
else ...`. -/
def addMetadataTimeFormat (t : ℚ) : TimeFormat :=
  if t < 60 then .secondsOnly
  else if 60 < t ∧ t < 3600 then .minutesSeconds
  else .hoursMinutesSeconds

/-- Branch selection of `execution_timer` in
`src/src/services/process_timer.py` (lines 19–46): `if process_time < 60 ...
elif 60 <= process_time < 3600 ... else ...`. -/
def executionTimerFormat (t : ℚ) : TimeFormat :=
  if t < 60 then .secondsOnly
  else if 60 ≤ t ∧ t < 3600 then .minutesSeconds
  else .hoursMinutesSeconds

/-! ## Filesystem model -/

/-- A path, as the `str` paths the code joins and compares. -/
abbrev FPath := List Char

/-- The IPTC fields the writer sets: `object name`, `caption/abstract`,
`keywords`, `by-line`. -/
structure MetaFields where
  title : List Char
  description : List Char
  keywords : List (List Char)
  author : List Char
deriving DecidableEq, Repr

/-- Contents of a regular file: raw bytes, or bytes whose IPTC container was
rewritten with the given fields (`othersRetained` records whether the
pre-existing container was loaded, as opposed to `IPTCInfo(None)` starting
afresh after a load failure). -/
inductive FileData where
  | raw (id : Nat)
  | withMeta (id : Nat) (fields : MetaFields) (othersRetained : Bool)
deriving DecidableEq, Repr

/-- A flat filesystem: association of paths to file data. -/
abbrev FS := List (FPath × FileData)

/-- Contents at a path, if a file exists there. -/
def fsRead : FS → FPath → Option FileData
  | [], _ => none
  | (q, d) :: rest, p => if q = p then some d else fsRead rest p

/-- `os.path.exists` / `os.path.isfile` over the model. -/
def fsExistsB (fs : FS) (p : FPath) : Bool :=
  (fsRead fs p).isSome

/-- Delete every entry at a path (`os.remove`, or the removal half of a move). -/
def fsRemove : FS → FPath → FS
  | [], _ => []
  | (q, d) :: rest, p => if q = p then fsRemove rest p else (q, d) :: fsRemove rest p

/-- Create or overwrite the file at a path. -/
def fsWrite (fs : FS) (p : FPath) (d : FileData) : FS :=
  (p, d) :: fsRemove fs p

/-- `os.path.join(a, b)` for the relative names the code joins. -/
def pathJoin (a b : FPath) : FPath :=
  if a.isEmpty then b
  else if a.getLast? = some '/' then a ++ b
  else a ++ '/' :: b

/-- The image-extension tuple of the `str.endswith` checks. -/
def imageExts : List FPath :=
  [".jpg".toList, ".jpeg".toList, ".png".toList, ".gif".toList, ".bmp".toList,
   ".webp".toList, ".tiff".toList, ".ico".toList, ".svg".toList]

/-- `image_name.lower().endswith(('.jpg', ..., '.svg'))`. -/
def endswithImageExt (name : FPath) : Bool :=
  imageExts.any (fun e => endsWithL (pyLower name) e)

/-! ## Decimal rendering of the collision counter -/

/-- Little-endian decimal digits (fuel-driven so that the kernel can
evaluate it; `decDigits` supplies sufficient fuel). -/
def decDigitsAux : Nat → Nat → List Nat
  | 0, _ => []
  | fuel + 1, n => if n = 0 then [] else n % 10 :: decDigitsAux fuel (n / 10)

/-- Little-endian decimal digits of `n` (empty for `0`). -/
def decDigits (n : Nat) : List Nat :=
  decDigitsAux (n + 1) n

/-- Value of a little-endian digit list. -/
def fromDigits : List Nat → Nat
  | [] => 0
  | d :: ds => d + 10 * fromDigits ds

/-- A decimal digit as a character. -/
def digitChar (d : Nat) : Char :=
  Char.ofNat (48 + d)

/-- The character's digit value again. -/
def charDigit (c : Char) : Nat :=
  c.toNat - 48

/-- Decimal rendering of `n`, as Python `f"{n}"` produces it. -/
def natToChars (n : Nat) : List Char :=
  if n = 0 then ['0'] else ((decDigits n).map digitChar).reverse

/-! ## `os.path.splitext` and quarantine names -/

/-- Index of the last `'.'` in a name (`str.rfind('.')`). -/
def rfindDot : List Char → Option Nat
  | [] => none
  | c :: rest =>
    match rfindDot rest with
    | some i => some (i + 1)
    | none => if c = '.' then some 0 else none

/-- `os.path.splitext` for a bare file name: split at the last dot unless every
character before it is itself a dot (so `.bashrc`-style names keep no
extension). -/
def splitext (name : FPath) : FPath × FPath :=
  match rfindDot name with
  | none => (name, [])
  | some i =>
    if (name.take i).all (fun c => c == '.') then (name, [])
    else (name.take i, name.drop i)

/-- The `counter`-th candidate name of the collision loop: the original name
first, then `f"{base_name}_({counter}){ext}"`. -/
def candName (base ext name : FPath) : Nat → FPath
  | 0 => name
  | k + 1 => base ++ "_(".toList ++ natToChars (k + 1) ++ ")".toList ++ ext

/-- The `while os.path.exists(...)` scan: try candidate `k`, `k+1`, … while
they exist, giving up only when the fuel runs out (which `searchFree_total`
shows never happens at the fuel `quarantineTarget` supplies). -/
def searchFree (fs : FS) (cand : Nat → FPath) : Nat → Nat → Option Nat
  | 0, _ => none
  | fuel + 1, k => if fsExistsB fs (cand k) then searchFree fs cand fuel (k + 1) else some k

/-- Full path of candidate `k` inside the `Not_Images` folder. -/
def qCand (fld base ext name : FPath) (k : Nat) : FPath :=
  pathJoin fld (candName base ext name k)

/-- The free destination name the collision loop settles on, inside `fld`. -/
def quarantineTarget (fs : FS) (fld name : FPath) : FPath :=
  let base := (splitext name).1
  let ext := (splitext name).2
  match searchFree fs (qCand fld base ext name) (fs.length + 1) 0 with
  | some k => qCand fld base ext name k
  | none => []

/-- `Not_Images`. -/
def notImagesName : FPath := "Not_Images".toList

/-- The quarantine move of a non-image file: pick the first free candidate in
`fld` and `shutil.move` the file onto it (a missing source makes the move
raise, which the caller's `except` swallows leaving the filesystem unchanged). -/
def quarantineMove (fs : FS) (fld imagePath name : FPath) : FS :=
  match fsRead fs imagePath with
  | some d => fsWrite (fsRemove fs imagePath) (quarantineTarget fs fld name) d
  | none => fs

/-! ## `ImagesDescriber.add_metadata` (`src/src/image_describer.py`) -/

/-- Per-item oracle for the externally determined outcomes of one loop
iteration: the generator call (`parse_response`), `img.verify()`, the
`isinstance(img, JpegImagePlugin.JpegImageFile)` test, `IPTCInfo(temp)`,
`info.save_as(temp)`, `shutil.move`, the non-JPEG `img.save`, and the fresh
path handed out by `tempfile.NamedTemporaryFile`. -/
structure ItemEnv where
  parseOutcome : PyOutcome (List Char × List Char × List (List Char))
  verifyOk : Bool
  isJpeg : Bool
  iptcLoadOk : Bool
  saveOk : Bool
  moveOk : Bool
  imgSaveOk : Bool
  tempPath : FPath

/-- The describer's configuration (prompt and author as used by the loop). -/
structure DescriberCfg where
  srcPath : FPath
  dstPath : FPath
  authorName : List Char

/-- Loop-carried state: the filesystem, the two counters, and the binding
status of the Python local `temp_image_path` (`none` = never assigned). -/
structure LoopState where
  fs : FS
  processed : Nat
  unprocessed : Nat
  tempBound : Option FPath

/-- An abort of the whole batch: a `SystemExit` from the generator-error
check, or the `NameError` from reading an unassigned `temp_image_path`. -/
inductive StepError where
  | systemExit (code : Nat)
  | nameError
deriving DecidableEq, Repr

/-- `info['object name'] = ...` … `info.save_as(temp)`: the file keeps its
pixel bytes and gets the four IPTC fields; `othersRetained` is false when the
container had to be started afresh by `IPTCInfo(None)`. -/
def setIptcFields (d : FileData) (f : MetaFields) (othersRetained : Bool) : FileData :=
  match d with
  | .raw i => .withMeta i f othersRetained
  | .withMeta i _ _ => .withMeta i f othersRetained

/-- `ImagesDescriber.remove_backup_file` (lines 321–339): guard against a
blank name, then remove `filename + '~'` if it exists. -/
def remove_backup_file (fs : FS) (filename : FPath) : FS :=
  if (pyStrip filename).isEmpty then fs
  else fsRemove fs (filename ++ ['~'])

/-- One iteration of the `for image_name in self.image_files` loop of
`add_metadata` (lines 188–288). The accepted branch runs under
`try/except Exception` (ordinary exceptions bump `unprocessed_count`; a
`SystemExit` propagates); the non-image branch runs its own
`try/except/finally` whose `finally` calls `remove_backup_file` and then reads
`temp_image_path`, raising `NameError` when that local was never assigned. -/
def processItem (cfg : DescriberCfg) (env : ItemEnv) (name : FPath) (st : LoopState) :
    LoopState × Option StepError :=
  let imagePath := pathJoin cfg.srcPath name
  let destinationPath := pathJoin cfg.dstPath name
  if endswithImageExt name && fsExistsB st.fs imagePath then
    match env.parseOutcome with
    | .exited code => (st, some (.systemExit code))
    | .raised => ({ st with unprocessed := st.unprocessed + 1 }, none)
    | .returned (title, description, keywords) =>
      if !env.verifyOk then ({ st with unprocessed := st.unprocessed + 1 }, none)
      else if env.isJpeg then
        let temp := env.tempPath
        let fs1 := fsWrite st.fs temp (.raw 0)
        match fsRead st.fs imagePath with
        | none =>
          ({ st with fs := fs1, unprocessed := st.unprocessed + 1,
                     tempBound := some temp }, none)
        | some srcData =>
          let fs2 := fsWrite fs1 temp srcData
          if !env.saveOk then
            ({ st with fs := fs2, unprocessed := st.unprocessed + 1,
                       tempBound := some temp }, none)
          else
            let newData :=
              setIptcFields srcData
                ⟨title, description, keywords, cfg.authorName⟩ env.iptcLoadOk
            let fs3 := fsWrite fs2 temp newData
            if !env.moveOk then
              ({ st with fs := fs3, unprocessed := st.unprocessed + 1,
                         tempBound := some temp }, none)
            else
              ({ st with fs := fsWrite (fsRemove fs3 temp) destinationPath newData,
                         processed := st.processed + 1,
                         tempBound := some temp }, none)
      else
        match fsRead st.fs imagePath with
        | some d =>
          if env.imgSaveOk then ({ st with fs := fsWrite st.fs destinationPath d }, none)
          else ({ st with unprocessed := st.unprocessed + 1 }, none)
        | none => ({ st with unprocessed := st.unprocessed + 1 }, none)
  else
    let notImgFld := pathJoin cfg.dstPath notImagesName
    let fsAfterMove :=
      if env.moveOk then quarantineMove st.fs notImgFld imagePath name else st.fs
    let fsB := remove_backup_file fsAfterMove destinationPath
    match st.tempBound with
    | none => ({ st with fs := fsB }, some .nameError)
    | some t =>
      if t.isEmpty then ({ st with fs := fsB }, none)
      else ({ st with fs := fsRemove fsB t }, none)

/-- The whole `add_metadata` loop: items in order, stopping at the first
uncaught error. -/
def addMetadataLoop (cfg : DescriberCfg) :
    List (FPath × ItemEnv) → LoopState → LoopState × Option StepError
  | [], st => (st, none)
  | (name, env) :: rest, st =>
    match processItem cfg env name st with
    | (st', none) => addMetadataLoop cfg rest st'
    | (st', some e) => (st', some e)

/-! ## `filter_files_by_extension` (`src/src/files_filter.py`) -/

/-- What `Image.open` finds: a JPEG container, another recognized format, or
an exception (corrupt/unreadable bytes). -/
inductive InspectResult where
  | jpeg
  | otherFormat
  | raisesOnOpen
deriving DecidableEq, Repr

/-- Oracle for one classifier iteration. -/
structure FilterEnv where
  inspect : InspectResult
  moveOk : Bool

/-- An uncaught exception aborting the classification pass. -/
inductive FilterAbort where
  | openError
deriving DecidableEq, Repr

/-- One iteration of the classifier loop (lines 29–87): image-extension files
are opened — `Image.open` sits outside any `try`, so a raise aborts the pass —
JPEGs are collected, other formats are logged and left in place, and
everything else goes through the quarantine move, whose failure is caught. -/
def filterItem (srcPath : FPath) (env : FilterEnv) (name : FPath) (fs : FS)
    (acc : List FPath) : (FS × List FPath) × Option FilterAbort :=
  let imagePath := pathJoin srcPath name
  if endswithImageExt name && fsExistsB fs imagePath then
    match env.inspect with
    | .raisesOnOpen => ((fs, acc), some .openError)
    | .jpeg => ((fs, acc ++ [name]), none)
    | .otherFormat => ((fs, acc), none)
  else
    let notImgFld := pathJoin srcPath notImagesName
    let fs' := if env.moveOk then quarantineMove fs notImgFld imagePath name else fs
    ((fs', acc), none)

/-- The whole classifier pass, in directory order. -/
def filterFiles (srcPath : FPath) :
    List (FPath × FilterEnv) → FS → List FPath → (FS × List FPath) × Option FilterAbort
  | [], fs, acc => ((fs, acc), none)
  | (name, env) :: rest, fs, acc =>
    match filterItem srcPath env name fs acc with
    | (r, none) => filterFiles srcPath rest r.1 r.2
    | (r, some e) => (r, some e)

/-! ## Filesystem lemmas -/

theorem fsRead_fsRemove (fs : FS) (p q : FPath) :
    fsRead (fsRemove fs p) q = if p = q then none else fsRead fs q := by
  induction fs with
  | nil => simp only [fsRemove, fsRead]; split <;> rfl
  | cons hd tl ih =>
    obtain ⟨a, d⟩ := hd
    by_cases hap : a = p <;> by_cases hpq : p = q
    · simp only [fsRemove, fsRead, if_pos hap, ih, if_pos hpq]
    · have haq : ¬ a = q := fun h => hpq (hap.symm.trans h)
      simp only [fsRemove, fsRead, if_pos hap, ih, if_neg hpq, if_neg haq]
    · have haq : ¬ a = q := fun h => hap (h.trans hpq.symm)
      simp only [fsRemove, fsRead, if_neg hap, if_neg haq, ih, if_pos hpq]
    · by_cases haq : a = q
      · simp only [fsRemove, fsRead, if_neg hap, if_pos haq, if_neg hpq]
      · simp only [fsRemove, fsRead, if_neg hap, if_neg haq, ih, if_neg hpq]

theorem fsRead_fsWrite (fs : FS) (p : FPath) (d : FileData) (q : FPath) :
    fsRead (fsWrite fs p d) q = if p = q then some d else fsRead fs q := by
  by_cases hpq : p = q
  · simp only [fsWrite, fsRead, if_pos hpq]
  · simp only [fsWrite, fsRead, if_neg hpq, fsRead_fsRemove]

theorem fsRead_isSome_mem (fs : FS) (p : FPath)
    (h : (fsRead fs p).isSome = true) : p ∈ fs.map Prod.fst := by
  induction fs with
  | nil => exact absurd h (by simp only [fsRead, Option.isSome_none, Bool.false_eq_true,
      not_false_eq_true])
  | cons hd tl ih =>
    obtain ⟨a, d⟩ := hd
    simp only [fsRead] at h
    by_cases hap : a = p
    · exact List.mem_cons.mpr (Or.inl hap.symm)
    · rw [if_neg hap] at h
      exact List.mem_cons.mpr (Or.inr (ih h))

/-! ## Decimal-rendering lemmas -/

theorem decDigitsAux_spec (fuel : Nat) :
    ∀ n : Nat, n ≤ fuel → fromDigits (decDigitsAux fuel n) = n := by
  induction fuel with
  | zero =>
    intro n hn
    have : n = 0 := Nat.le_zero.mp hn
    simp [this, decDigitsAux, fromDigits]
  | succ fuel ih =>
    intro n hn
    simp only [decDigitsAux]
    by_cases hzero : n = 0
    · simp [hzero, fromDigits]
    · rw [if_neg hzero]
      simp only [fromDigits]
      have hdiv : n / 10 < n := Nat.div_lt_self (Nat.pos_of_ne_zero hzero) (by norm_num)
      rw [ih (n / 10) (by omega)]
      omega

theorem fromDigits_decDigits (n : Nat) : fromDigits (decDigits n) = n :=
  decDigitsAux_spec (n + 1) n (Nat.le_succ n)

theorem decDigitsAux_lt (fuel : Nat) :
    ∀ n : Nat, ∀ d ∈ decDigitsAux fuel n, d < 10 := by
  induction fuel with
  | zero => intro n d hd; simp [decDigitsAux] at hd
  | succ fuel ih =>
    intro n d hd
    simp only [decDigitsAux] at hd
    by_cases hzero : n = 0
    · simp [hzero] at hd
    · rw [if_neg hzero] at hd
      rcases List.mem_cons.mp hd with h | h
      · subst h; exact Nat.mod_lt _ (by norm_num)
      · exact ih _ _ h

theorem decDigits_lt (n : Nat) : ∀ d ∈ decDigits n, d < 10 :=
  decDigitsAux_lt (n + 1) n

theorem charDigit_digitChar : ∀ d : Nat, d < 10 → charDigit (digitChar d) = d := by
  decide

theorem map_charDigit_digitChar (ds : List Nat) (h : ∀ d ∈ ds, d < 10) :
    (ds.map digitChar).map charDigit = ds := by
  induction ds with
  | nil => rfl
  | cons d rest ih =>
    simp only [List.map_cons, List.cons.injEq]
    exact ⟨charDigit_digitChar d (h d (List.mem_cons_self _ _)),
           ih fun x hx => h x (List.mem_cons_of_mem _ hx)⟩

theorem decDigits_map_inj {m n : Nat}
    (h : (decDigits m).map digitChar = (decDigits n).map digitChar) : m = n := by
  have h3 : ((decDigits m).map digitChar).map charDigit =
      ((decDigits n).map digitChar).map charDigit := by rw [h]
  rw [map_charDigit_digitChar (decDigits m) (decDigits_lt m),
      map_charDigit_digitChar (decDigits n) (decDigits_lt n)] at h3
  calc m = fromDigits (decDigits m) := (fromDigits_decDigits m).symm
  _ = fromDigits (decDigits n) := by rw [h3]
  _ = n := fromDigits_decDigits n

theorem natToChars_injective : Function.Injective natToChars := by
  intro m n h
  unfold natToChars at h
  by_cases hm : m = 0 <;> by_cases hn : n = 0
  · omega
  · exfalso
    rw [if_pos hm, if_neg hn] at h
    have h2 : (decDigits n).map digitChar = ['0'] := by
      have := congrArg List.reverse h
      simpa using this.symm
    have h3 := congrArg (List.map charDigit) h2
    rw [map_charDigit_digitChar (decDigits n) (decDigits_lt n)] at h3
    have h5 : List.map charDigit ['0'] = [0] := by decide
    rw [h5] at h3
    have h4 := fromDigits_decDigits n
    rw [h3] at h4
    simp [fromDigits] at h4
    exact hn h4.symm
  · exfalso
    rw [if_neg hm, if_pos hn] at h
    have h2 : (decDigits m).map digitChar = ['0'] := by
      have := congrArg List.reverse h
      simpa using this
    have h3 := congrArg (List.map charDigit) h2
    rw [map_charDigit_digitChar (decDigits m) (decDigits_lt m)] at h3
    have h5 : List.map charDigit ['0'] = [0] := by decide
    rw [h5] at h3
    have h4 := fromDigits_decDigits m
    rw [h3] at h4
    simp [fromDigits] at h4
    exact hm h4.symm
  · rw [if_neg hm, if_neg hn] at h
    exact decDigits_map_inj (List.reverse_injective h)

/-! ## Quarantine-name lemmas -/

theorem splitext_append (name : FPath) :
    (splitext name).1 ++ (splitext name).2 = name := by
  unfold splitext
  cases h : rfindDot name with
  | none => simp
  | some i =>
    by_cases hall : (name.take i).all (fun c => c == '.')
    · simp [hall]
    · simp [hall, List.take_append_drop]

theorem pathJoin_injective (fld : FPath) {a b : FPath}
    (h : pathJoin fld a = pathJoin fld b) : a = b := by
  unfold pathJoin at h
  by_cases h1 : fld.isEmpty
  · simpa [h1] using h
  · by_cases h2 : fld.getLast? = some '/'
    · simp only [if_neg h1, if_pos h2] at h
      exact List.append_cancel_left h
    · simp only [if_neg h1, if_neg h2] at h
      simpa using List.append_cancel_left h

theorem candName_injective (base ext name : FPath) (hbe : base ++ ext = name) :
    Function.Injective (candName base ext name) := by
  have e1 : ("_(".toList).length = 2 := rfl
  have e2 : (")".toList).length = 1 := rfl
  intro j k h
  match j, k with
  | 0, 0 => rfl
  | 0, k + 1 =>
    exfalso
    simp only [candName] at h
    have hlen := congrArg List.length h
    rw [← hbe] at hlen
    simp only [List.length_append, e1, e2] at hlen
    omega
  | j + 1, 0 =>
    exfalso
    simp only [candName] at h
    have hlen := congrArg List.length h
    rw [← hbe] at hlen
    simp only [List.length_append, e1, e2] at hlen
    omega
  | j + 1, k + 1 =>
    simp only [candName, List.append_assoc] at h
    have h1 := List.append_cancel_left h
    have h2 := List.append_cancel_left h1
    have h3 := List.append_cancel_right h2
    have h4 : j = k := Nat.succ_injective (natToChars_injective h3)
    rw [h4]

theorem qCand_injective (fld base ext name : FPath) (hbe : base ++ ext = name) :
    Function.Injective (qCand fld base ext name) :=
  fun _ _ h => candName_injective base ext name hbe (pathJoin_injective fld h)

theorem searchFree_free (fs : FS) (cand : Nat → FPath) :
    ∀ fuel k m, searchFree fs cand fuel k = some m →
      fsExistsB fs (cand m) = false ∧ k ≤ m ∧
      ∀ i, k ≤ i → i < m → fsExistsB fs (cand i) = true := by
  intro fuel
  induction fuel with
  | zero => intro k m h; simp [searchFree] at h
  | succ fuel ih =>
    intro k m h
    simp only [searchFree] at h
    by_cases hex : fsExistsB fs (cand k) = true
    · rw [if_pos hex] at h
      obtain ⟨hfree, hle, hmin⟩ := ih (k + 1) m h
      refine ⟨hfree, by omega, fun i hki him => ?_⟩
      by_cases hik : i = k
      · rw [hik]; exact hex
      · exact hmin i (by omega) him
    · rw [if_neg hex] at h
      have hm : m = k := (Option.some.injEq _ _ ▸ h).symm
      subst hm
      exact ⟨Bool.not_eq_true _ ▸ (by simpa using hex), Nat.le_refl _,
             fun i h1 h2 => absurd (Nat.lt_of_le_of_lt h1 h2) (Nat.lt_irrefl _)⟩

theorem searchFree_none (fs : FS) (cand : Nat → FPath) :
    ∀ fuel k, searchFree fs cand fuel k = none →
      ∀ j, j < fuel → fsExistsB fs (cand (k + j)) = true := by
  intro fuel
  induction fuel with
  | zero => intro k _ j hj; omega
  | succ fuel ih =>
    intro k h j hj
    simp only [searchFree] at h
    by_cases hex : fsExistsB fs (cand k) = true
    · rw [if_pos hex] at h
      match j with
      | 0 => simpa using hex
      | j + 1 =>
        have := ih (k + 1) h j (by omega)
        have harr : k + 1 + j = k + (j + 1) := by omega
        rwa [harr] at this
    · rw [if_neg hex] at h
      exact absurd h (by simp)

theorem searchFree_total (fs : FS) (cand : Nat → FPath)
    (hinj : Function.Injective cand) :
    ∃ m, searchFree fs cand (fs.length + 1) 0 = some m := by
  cases h : searchFree fs cand (fs.length + 1) 0 with
  | some m => exact ⟨m, rfl⟩
  | none =>
    exfalso
    have hall := searchFree_none fs cand (fs.length + 1) 0 h
    have hsub : (Finset.range (fs.length + 1)).image cand ⊆ (fs.map Prod.fst).toFinset := by
      intro p hp
      rw [Finset.mem_image] at hp
      obtain ⟨j, hj, rfl⟩ := hp
      rw [Finset.mem_range] at hj
      have hex := hall j hj
      rw [Nat.zero_add] at hex
      exact List.mem_toFinset.mpr (fsRead_isSome_mem fs (cand j) hex)
    have h2 : ((Finset.range (fs.length + 1)).image cand).card = fs.length + 1 := by
      rw [Finset.card_image_of_injective _ hinj, Finset.card_range]
    have h3 := Finset.card_le_card hsub
    have h4 : (fs.map Prod.fst).toFinset.card ≤ fs.length := by
      have := (fs.map Prod.fst).toFinset_card_le
      simpa using this
    omega

theorem quarantineTarget_spec (fs : FS) (fld name : FPath) :
    ∃ k, quarantineTarget fs fld name =
        qCand fld (splitext name).1 (splitext name).2 name k ∧
      fsExistsB fs (quarantineTarget fs fld name) = false ∧
      ∀ j, j < k →
        fsExistsB fs (qCand fld (splitext name).1 (splitext name).2 name j) = true := by
  obtain ⟨m, hm⟩ := searchFree_total fs
    (qCand fld (splitext name).1 (splitext name).2 name)
    (qCand_injective fld _ _ name (splitext_append name))
  obtain ⟨hfree, _, hmin⟩ := searchFree_free fs _ _ _ _ hm
  refine ⟨m, ?_, ?_, ?_⟩
  · simp only [quarantineTarget]
    rw [hm]
  · simp only [quarantineTarget]
    rw [hm]
    exact hfree
  · intro j hj
    exact hmin j (Nat.zero_le _) hj

/-! ## Claim theorems -/

/-- C8 counterexample: the end-of-run summary inlined in `add_metadata` uses
`elif 60 < process_time < 3600`, so the boundary value `t = 60` falls through
to the hours branch, not the minutes-plus-seconds branch the claim states. -/
theorem c8_boundary_counterexample :
    addMetadataTimeFormat 60 = .hoursMinutesSeconds ∧
    addMetadataTimeFormat 60 ≠ .minutesSeconds := by
  constructor
  · decide
  · decide

/-- C8 (amended): both formatters agree on the open ranges — seconds below
60, minutes+seconds strictly between 60 and 3600, hours from 3600 up — but at
exactly `t = 60` the standalone `execution_timer` helper picks
minutes+seconds while the summary inlined in `add_metadata` (the code that
actually reports the end-of-run summary) picks the hours wording, because its
middle branch requires `60 < t` strictly. -/
theorem c8_time_format_thresholds (t : ℚ) :
    (t < 60 → addMetadataTimeFormat t = .secondsOnly ∧
      executionTimerFormat t = .secondsOnly)
  ∧ (60 < t → t < 3600 → addMetadataTimeFormat t = .minutesSeconds ∧
      executionTimerFormat t = .minutesSeconds)
  ∧ (t = 60 → addMetadataTimeFormat t = .hoursMinutesSeconds ∧
      executionTimerFormat t = .minutesSeconds)
  ∧ (3600 ≤ t → addMetadataTimeFormat t = .hoursMinutesSeconds ∧
      executionTimerFormat t = .hoursMinutesSeconds) := by
  refine ⟨fun h => ⟨?_, ?_⟩, fun h1 h2 => ⟨?_, ?_⟩, fun h => ⟨?_, ?_⟩, fun h => ⟨?_, ?_⟩⟩
  · unfold addMetadataTimeFormat; rw [if_pos h]
  · unfold executionTimerFormat; rw [if_pos h]
  · unfold addMetadataTimeFormat
    rw [if_neg (by linarith), if_pos ⟨h1, h2⟩]
  · unfold executionTimerFormat
    rw [if_neg (by linarith), if_pos ⟨le_of_lt h1, h2⟩]
  · subst h
    unfold addMetadataTimeFormat
    rw [if_neg (by norm_num), if_neg (by norm_num)]
  · subst h
    unfold executionTimerFormat
    rw [if_neg (by norm_num), if_pos (by norm_num)]
  · unfold addMetadataTimeFormat
    rw [if_neg (by linarith), if_neg (by rintro ⟨_, hlt⟩; linarith)]
  · unfold executionTimerFormat
    rw [if_neg (by linarith), if_neg (by rintro ⟨_, hlt⟩; linarith)]

/-- C8 witness: the four threshold cases at 30, 61, 60, and 7200 seconds. -/
theorem c8_time_format_thresholds_witness :
    (addMetadataTimeFormat 30 = .secondsOnly ∧ executionTimerFormat 30 = .secondsOnly)
  ∧ (addMetadataTimeFormat 61 = .minutesSeconds ∧ executionTimerFormat 61 = .minutesSeconds)
  ∧ (addMetadataTimeFormat 60 = .hoursMinutesSeconds ∧ executionTimerFormat 60 = .minutesSeconds)
  ∧ (addMetadataTimeFormat 7200 = .hoursMinutesSeconds ∧ executionTimerFormat 7200 = .hoursMinutesSeconds) :=
  ⟨(c8_time_format_thresholds 30).1 (by norm_num),
   (c8_time_format_thresholds 61).2.1 (by norm_num) (by norm_num),
   (c8_time_format_thresholds 60).2.2.1 rfl,
   (c8_time_format_thresholds 7200).2.2.2 (by norm_num)⟩

/-- C10: a generator response dictionary with no `error` field whose
structure prevents extracting the content — the empty dictionary, which has
no `choices` entry, and a response whose first choice carries no `message` —
is caught by the parser's `except` clause, which logs and falls through, so
`parse_response` returns `None` instead of the documented triple. -/
theorem c10_broken_structure_returns_none :
    (dictFind ([] : List (List Char × PyObj)) "error".toList = none ∧
      parse_response [] = .returned none) ∧
    (dictFind [("choices".toList, PyObj.plist [PyObj.pdict []])] "error".toList = none ∧
      parse_response [("choices".toList, PyObj.plist [PyObj.pdict []])] = .returned none) :=
  ⟨⟨rfl, rfl⟩, ⟨rfl, rfl⟩⟩

/-- C5: a field whose marker is absent from the generated text takes its
default — `'No Title'`, `'No Description'`, or the empty keyword list — while
a field whose marker is present is still extracted by its normal slice. -/
theorem c5_defaults_on_missing_markers (content : List Char) :
    (pyFind (pyLower content) markerTitle = -1 →
      (parseContent content).title = defaultTitle)
  ∧ (pyFind (pyLower content) markerDescription = -1 →
      (parseContent content).description = defaultDescription)
  ∧ (pyFind (pyLower content) markerKeywords = -1 →
      (parseContent content).keywords = [])
  ∧ (pyFind (pyLower content) markerTitle ≠ -1 →
      (parseContent content).title =
        titleSlice content (pyFind (pyLower content) markerTitle)
          (pyFind (pyLower content) markerDescription)
          (pyFind (pyLower content) markerKeywords))
  ∧ (pyFind (pyLower content) markerDescription ≠ -1 →
      (parseContent content).description =
        descriptionSlice content (pyFind (pyLower content) markerDescription)
          (pyFind (pyLower content) markerKeywords))
  ∧ (pyFind (pyLower content) markerKeywords ≠ -1 →
      (parseContent content).keywords =
        keywordsSlice content (pyFind (pyLower content) markerKeywords)) := by
  simp only [parseContent]
  refine ⟨fun h => ?_, fun h => ?_, fun h => ?_, fun h => ?_, fun h => ?_, fun h => ?_⟩
  · rw [if_neg (fun hc => hc h)]
  · rw [if_neg (fun hc => hc h)]
  · rw [if_neg (fun hc => hc h)]
  · rw [if_pos h]
  · rw [if_pos h]
  · rw [if_pos h]

/-- C5 witness: markerless text takes all three defaults; text containing all
three markers extracts each field by its slice. -/
theorem c5_defaults_on_missing_markers_witness :
    ((parseContent "xy".toList).title = defaultTitle
  ∧ (parseContent "xy".toList).description = defaultDescription
  ∧ (parseContent "xy".toList).keywords = [])
  ∧ ((parseContent "titleXkeywordsYdescriptionZ".toList).title =
      titleSlice "titleXkeywordsYdescriptionZ".toList
        (pyFind (pyLower "titleXkeywordsYdescriptionZ".toList) markerTitle)
        (pyFind (pyLower "titleXkeywordsYdescriptionZ".toList) markerDescription)
        (pyFind (pyLower "titleXkeywordsYdescriptionZ".toList) markerKeywords)
  ∧ (parseContent "titleXkeywordsYdescriptionZ".toList).description =
      descriptionSlice "titleXkeywordsYdescriptionZ".toList
        (pyFind (pyLower "titleXkeywordsYdescriptionZ".toList) markerDescription)
        (pyFind (pyLower "titleXkeywordsYdescriptionZ".toList) markerKeywords)
  ∧ (parseContent "titleXkeywordsYdescriptionZ".toList).keywords =
      keywordsSlice "titleXkeywordsYdescriptionZ".toList
        (pyFind (pyLower "titleXkeywordsYdescriptionZ".toList) markerKeywords)) :=
  ⟨⟨(c5_defaults_on_missing_markers "xy".toList).1 (by decide),
    (c5_defaults_on_missing_markers "xy".toList).2.1 (by decide),
    (c5_defaults_on_missing_markers "xy".toList).2.2.1 (by decide)⟩,
   ⟨(c5_defaults_on_missing_markers "titleXkeywordsYdescriptionZ".toList).2.2.2.1 (by decide),
    (c5_defaults_on_missing_markers "titleXkeywordsYdescriptionZ".toList).2.2.2.2.1 (by decide),
    (c5_defaults_on_missing_markers "titleXkeywordsYdescriptionZ".toList).2.2.2.2.2 (by decide)⟩⟩

/-- Claim C4's stated rule for the end of the title span, written from the
claim's words: the start of the next marker that appears later in the text —
in particular, when both the Description and the Keywords markers occur after
the Title marker, whichever of the two starts earlier. -/
def titleEndClaimed (content : List Char) : Nat :=
  match subFind markerTitle (pyLower content) with
  | none => content.length
  | some t =>
    match subFind markerDescription (pyLower content),
          subFind markerKeywords (pyLower content) with
    | some d, some k =>
      if t < d ∧ t < k then min d k
      else if t < d then d
      else if t < k then k
      else content.length
    | some d, none => if t < d then d else content.length
    | none, some k => if t < k then k else content.length
    | none, none => content.length

/-- The title value claim C4 asserts: the span from just after the Title
marker to `titleEndClaimed`, cleaned of punctuation/digits and stripped. -/
def titleClaimed (content : List Char) : List Char :=
  match subFind markerTitle (pyLower content) with
  | none => defaultTitle
  | some t =>
    pyStrip (pyTranslate (pySlice content ((t : Int) + 5) ((titleEndClaimed content : Int))))

/-- C4 counterexample: in `titleXkeywordsYdescriptionZ` both later markers
follow the Title marker, Keywords (index 6) before Description (index 15);
the claim demands the title stop at the earlier Keywords marker, giving
`"X"`, but the code compares only `description_index > title_index` first and
so stops at the Description marker, returning `"XkeywordsY"` — the Keywords
section's content leaks into the title. -/
theorem c4_counterexample :
    (parseContent "titleXkeywordsYdescriptionZ".toList).title ≠
      titleClaimed "titleXkeywordsYdescriptionZ".toList ∧
    (parseContent "titleXkeywordsYdescriptionZ".toList).title = "XkeywordsY".toList ∧
    titleClaimed "titleXkeywordsYdescriptionZ".toList = "X".toList :=
  ⟨by decide, by decide, by decide⟩

/-- C4's amended rule for the end of the title span, as the code computes it:
the Description marker's start whenever Description occurs after Title (even
when the Keywords marker lies between the two), else the Keywords marker's
start when it occurs after Title, else the end of the text. -/
def titleEndAmended (content : List Char) (t : Nat) : Nat :=
  match subFind markerDescription (pyLower content) with
  | some d =>
    if t < d then d
    else
      match subFind markerKeywords (pyLower content) with
      | some k => if t < k then k else content.length
      | none => content.length
  | none =>
    match subFind markerKeywords (pyLower content) with
    | some k => if t < k then k else content.length
    | none => content.length

/-- C4 (amended): whenever the Title marker occurs (first occurrence,
case-insensitive, at position `t`), the extracted title is the text from just
after the marker up to `titleEndAmended` — the Description marker when it
appears later, else the Keywords marker when it appears later, else the end
of text — cleaned of punctuation and digits and stripped of surrounding
whitespace; content of a Keywords section lying between Title and Description
is included. -/
theorem c4_title_span_amended (content : List Char) (t : Nat)
    (h : subFind markerTitle (pyLower content) = some t) :
    (parseContent content).title =
      pyStrip (pyTranslate (pySlice content ((t : Int) + 5)
        ((titleEndAmended content t : Int)))) := by
  have hti : pyFind (pyLower content) markerTitle = (t : Int) := by
    unfold pyFind; rw [h]
  have hne : pyFind (pyLower content) markerTitle ≠ -1 := by
    rw [hti]; omega
  simp only [parseContent]
  rw [if_pos hne, hti]
  unfold titleSlice
  have hlen : ((markerTitle.length : Nat) : Int) = 5 := rfl
  rw [hlen]
  have hend :
      (if pyFind (pyLower content) markerDescription > (t : Int) then
        pyFind (pyLower content) markerDescription
      else if pyFind (pyLower content) markerKeywords > (t : Int) then
        pyFind (pyLower content) markerKeywords
      else (content.length : Int)) = ((titleEndAmended content t : Nat) : Int) := by
    unfold titleEndAmended
    cases hd : subFind markerDescription (pyLower content) with
    | some d =>
      have hdi : pyFind (pyLower content) markerDescription = (d : Int) := by
        unfold pyFind; rw [hd]
      rw [hdi]
      dsimp only
      by_cases htd : t < d
      · rw [if_pos (by exact_mod_cast htd), if_pos htd]
      · rw [if_neg (by exact_mod_cast htd), if_neg htd]
        cases hk : subFind markerKeywords (pyLower content) with
        | some k =>
          have hki : pyFind (pyLower content) markerKeywords = (k : Int) := by
            unfold pyFind; rw [hk]
          rw [hki]
          dsimp only
          by_cases htk : t < k
          · rw [if_pos (by exact_mod_cast htk), if_pos htk]
          · rw [if_neg (by exact_mod_cast htk), if_neg htk]
        | none =>
          have hki : pyFind (pyLower content) markerKeywords = -1 := by
            unfold pyFind; rw [hk]
          rw [hki]
          dsimp only
          rw [if_neg (by omega)]
    | none =>
      have hdi : pyFind (pyLower content) markerDescription = -1 := by
        unfold pyFind; rw [hd]
      rw [hdi]
      dsimp only
      rw [if_neg (by omega : ¬ (-1 : Int) > (t : Int))]
      cases hk : subFind markerKeywords (pyLower content) with
      | some k =>
        have hki : pyFind (pyLower content) markerKeywords = (k : Int) := by
          unfold pyFind; rw [hk]
        rw [hki]
        dsimp only
        by_cases htk : t < k
        · rw [if_pos (by exact_mod_cast htk), if_pos htk]
        · rw [if_neg (by exact_mod_cast htk), if_neg htk]
      | none =>
        have hki : pyFind (pyLower content) markerKeywords = -1 := by
          unfold pyFind; rw [hk]
        rw [hki]
        dsimp only
        rw [if_neg (by omega : ¬ (-1 : Int) > (t : Int))]
  rw [hend]

/-- C4 witness: in `title Cat dog` the Title marker sits at index 0, neither
other marker occurs, and the title runs to the end of the text. -/
theorem c4_title_span_amended_witness :
    (parseContent "title Cat dog".toList).title =
      pyStrip (pyTranslate (pySlice "title Cat dog".toList ((0 : Nat) + 5)
        ((titleEndAmended "title Cat dog".toList 0 : Int)))) :=
  c4_title_span_amended "title Cat dog".toList 0 (by decide)

/-- C3: a generator response carrying an explicit `error` field (with its
message entry) makes the parser log the message and terminate the process via
`sys.exit(1)` — a `SystemExit`, which the per-item `except Exception` of
`add_metadata` does not catch, so the batch iteration aborts with it; a
response without an `error` field never reaches that termination, and an
ordinary per-item exception is caught, only bumping the unprocessed counter
without touching the exit status. -/
theorem c3_generator_error_exit
    (resp : List (List Char × PyObj)) (cfg : DescriberCfg) (env : ItemEnv)
    (name : FPath) (st : LoopState) :
    (∀ e, dictFind resp "error".toList = some e →
      (∃ m, getItem e "message".toList = some m) →
      parse_response resp = .exited 1)
  ∧ (dictFind resp "error".toList = none →
      ∀ c, parse_response resp ≠ .exited c)
  ∧ ((endswithImageExt name && fsExistsB st.fs (pathJoin cfg.srcPath name)) = true →
      env.parseOutcome = .exited 1 →
      (processItem cfg env name st).2 = some (.systemExit 1) ∧
      (processItem cfg env name st).1 = st)
  ∧ ((endswithImageExt name && fsExistsB st.fs (pathJoin cfg.srcPath name)) = true →
      env.parseOutcome = .raised →
      (processItem cfg env name st).2 = none ∧
      (processItem cfg env name st).1.unprocessed = st.unprocessed + 1) := by
  refine ⟨fun e he ⟨m, hm⟩ => ?_, fun h c => ?_, fun hacc hexit => ?_, fun hacc hrai => ?_⟩
  · simp only [parse_response, he, hm]
  · simp only [parse_response, h]
    cases hx : extractContent resp <;> simp
  · constructor <;> simp [processItem, hacc, hexit]
  · constructor <;> simp [processItem, hacc, hrai]

/-- C3 witness: a concrete error response exits with status 1; the empty
response never exits; a concrete accepted item whose generator call exits
aborts the loop uncaught, while one whose call merely raises is caught and
counted unprocessed. -/
theorem c3_generator_error_exit_witness :
    parse_response [("error".toList, PyObj.pdict [("message".toList, PyObj.pstr "boom".toList)])] = .exited 1
  ∧ (∀ c, parse_response ([] : List (List Char × PyObj)) ≠ .exited c)
  ∧ ((processItem ⟨"s".toList, "d".toList, "au".toList⟩
        ⟨.exited 1, true, true, true, true, true, true, "t0".toList⟩
        "a.jpg".toList ⟨[("s/a.jpg".toList, .raw 1)], 0, 0, none⟩).2 = some (.systemExit 1))
  ∧ ((processItem ⟨"s".toList, "d".toList, "au".toList⟩
        ⟨.raised, true, true, true, true, true, true, "t0".toList⟩
        "a.jpg".toList ⟨[("s/a.jpg".toList, .raw 1)], 0, 0, none⟩).2 = none) :=
  ⟨(c3_generator_error_exit
      [("error".toList, PyObj.pdict [("message".toList, PyObj.pstr "boom".toList)])]
      ⟨"s".toList, "d".toList, "au".toList⟩
      ⟨.exited 1, true, true, true, true, true, true, "t0".toList⟩
      "a.jpg".toList ⟨[("s/a.jpg".toList, .raw 1)], 0, 0, none⟩).1
      (PyObj.pdict [("message".toList, PyObj.pstr "boom".toList)]) rfl
      ⟨PyObj.pstr "boom".toList, rfl⟩,
   fun c => (c3_generator_error_exit ([] : List (List Char × PyObj))
      ⟨"s".toList, "d".toList, "au".toList⟩
      ⟨.exited 1, true, true, true, true, true, true, "t0".toList⟩
      "a.jpg".toList ⟨[("s/a.jpg".toList, .raw 1)], 0, 0, none⟩).2.1 rfl c,
   ((c3_generator_error_exit ([] : List (List Char × PyObj))
      ⟨"s".toList, "d".toList, "au".toList⟩
      ⟨.exited 1, true, true, true, true, true, true, "t0".toList⟩
      "a.jpg".toList ⟨[("s/a.jpg".toList, .raw 1)], 0, 0, none⟩).2.2.1
      (by decide) rfl).1,
   ((c3_generator_error_exit ([] : List (List Char × PyObj))
      ⟨"s".toList, "d".toList, "au".toList⟩
      ⟨.raised, true, true, true, true, true, true, "t0".toList⟩
      "a.jpg".toList ⟨[("s/a.jpg".toList, .raw 1)], 0, 0, none⟩).2.2.2
      (by decide) rfl).1⟩

/-- C9: with the loop fresh — the Python local `temp_image_path` never
assigned because no JPEG item has been staged yet — a non-image item reaches
the cleanup `finally` of the quarantine branch, whose read of
`temp_image_path` raises `NameError`; the item-level handlers do not catch it
(they guard only the `try` body, and an exception raised in `finally`
propagates), so the batch aborts and the following JPEG item is never
processed. -/
theorem c9_unbound_temp_aborts_batch :
    (addMetadataLoop ⟨"s".toList, "d".toList, "au".toList⟩
      [("doc.txt".toList, ⟨.raised, true, true, true, true, true, true, "t0".toList⟩),
       ("b.jpg".toList,
        ⟨.returned ("T".toList, "D".toList, []), true, true, true, true, true, true,
         "t1".toList⟩)]
      ⟨[("s/doc.txt".toList, .raw 0), ("s/b.jpg".toList, .raw 1)], 0, 0, none⟩).2
      = some .nameError
  ∧ (addMetadataLoop ⟨"s".toList, "d".toList, "au".toList⟩
      [("doc.txt".toList, ⟨.raised, true, true, true, true, true, true, "t0".toList⟩),
       ("b.jpg".toList,
        ⟨.returned ("T".toList, "D".toList, []), true, true, true, true, true, true,
         "t1".toList⟩)]
      ⟨[("s/doc.txt".toList, .raw 0), ("s/b.jpg".toList, .raw 1)], 0, 0, none⟩).1.processed
      = 0
  ∧ fsRead (addMetadataLoop ⟨"s".toList, "d".toList, "au".toList⟩
      [("doc.txt".toList, ⟨.raised, true, true, true, true, true, true, "t0".toList⟩),
       ("b.jpg".toList,
        ⟨.returned ("T".toList, "D".toList, []), true, true, true, true, true, true,
         "t1".toList⟩)]
      ⟨[("s/doc.txt".toList, .raw 0), ("s/b.jpg".toList, .raw 1)], 0, 0, none⟩).1.fs
      "d/b.jpg".toList = none := by
  decide

/-- C2 evaluated at the failing input: a JPEG item whose `info.save_as`
raises finishes its iteration through the item-level `except Exception` with
no cleanup run — the cleanup `finally` is attached only to the non-image
branch of the loop — so the staged temporary copy is still present in the
filesystem after the item, contradicting the claimed guarantee that no
temporary file remains after processing an item. -/
theorem c2_cleanup_missing_on_jpeg_path :
    ((processItem ⟨"s".toList, "d".toList, "au".toList⟩
        ⟨.returned ("T".toList, "D".toList, []), true, true, true, false, true, true,
         "tmp/t0".toList⟩
        "a.jpg".toList ⟨[("s/a.jpg".toList, .raw 1)], 0, 0, none⟩).2 = none)
  ∧ fsRead (processItem ⟨"s".toList, "d".toList, "au".toList⟩
        ⟨.returned ("T".toList, "D".toList, []), true, true, true, false, true, true,
         "tmp/t0".toList⟩
        "a.jpg".toList ⟨[("s/a.jpg".toList, .raw 1)], 0, 0, none⟩).1.fs
      "tmp/t0".toList = some (.raw 1)
  ∧ (processItem ⟨"s".toList, "d".toList, "au".toList⟩
        ⟨.returned ("T".toList, "D".toList, []), true, true, true, false, true, true,
         "tmp/t0".toList⟩
        "a.jpg".toList ⟨[("s/a.jpg".toList, .raw 1)], 0, 0, none⟩).1.unprocessed = 1 := by
  decide

/-- C1 counterexample: the metadata-container load step fails on this item
(`iptcLoadOk = false`, so `IPTCInfo(temp)` raised and an empty container was
started), yet the item then completes and the destination file is replaced —
the claim's 'if any step before the move fails, the destination is unchanged'
is false for the recoverable container-load step. -/
theorem c1_counterexample :
    ((processItem ⟨"s".toList, "d".toList, "au".toList⟩
        ⟨.returned ("T".toList, "D".toList, []), true, true, false, true, true, true,
         "tmp/t0".toList⟩
        "a.jpg".toList
        ⟨[("s/a.jpg".toList, .raw 1), ("d/a.jpg".toList, .raw 9)], 0, 0, none⟩).2 = none)
  ∧ fsRead [("s/a.jpg".toList, FileData.raw 1), ("d/a.jpg".toList, FileData.raw 9)]
      "d/a.jpg".toList = some (.raw 9)
  ∧ fsRead (processItem ⟨"s".toList, "d".toList, "au".toList⟩
        ⟨.returned ("T".toList, "D".toList, []), true, true, false, true, true, true,
         "tmp/t0".toList⟩
        "a.jpg".toList
        ⟨[("s/a.jpg".toList, .raw 1), ("d/a.jpg".toList, .raw 9)], 0, 0, none⟩).1.fs
      "d/a.jpg".toList
      = some (.withMeta 1 ⟨"T".toList, "D".toList, [], "au".toList⟩ false)
  ∧ fsRead (processItem ⟨"s".toList, "d".toList, "au".toList⟩
        ⟨.returned ("T".toList, "D".toList, []), true, true, false, true, true, true,
         "tmp/t0".toList⟩
        "a.jpg".toList
        ⟨[("s/a.jpg".toList, .raw 1), ("d/a.jpg".toList, .raw 9)], 0, 0, none⟩).1.fs
      "d/a.jpg".toList ≠ some (.raw 9) := by
  decide

/-- C1 (amended): for an accepted JPEG item, the only step that modifies the
destination path is the final `shutil.move` of the fully written temporary
copy; when a pre-move step fails in a way that aborts the item — the
generator call raising, image verification failing, or the container save
onto the temporary copy raising — the iteration completes through the item
handler and the destination path is unchanged. (A metadata-container load
failure is recovered internally by starting an empty container and does not
by itself abort the item or leave the destination unchanged.) -/
theorem c1_destination_unchanged_amended
    (cfg : DescriberCfg) (env : ItemEnv) (name : FPath) (st : LoopState)
    (hacc : (endswithImageExt name && fsExistsB st.fs (pathJoin cfg.srcPath name)) = true)
    (hjpeg : env.isJpeg = true)
    (htemp : env.tempPath ≠ pathJoin cfg.dstPath name)
    (hfail : env.parseOutcome = .raised ∨
      ((∃ v, env.parseOutcome = .returned v) ∧
        (env.verifyOk = false ∨ env.saveOk = false))) :
    (processItem cfg env name st).2 = none ∧
    fsRead (processItem cfg env name st).1.fs (pathJoin cfg.dstPath name) =
      fsRead st.fs (pathJoin cfg.dstPath name) := by
  rcases hfail with hp | ⟨⟨v, hv⟩, hflag⟩
  · constructor <;> simp [processItem, hacc, hp]
  · obtain ⟨title, description, keywords⟩ := v
    rcases hflag with hvf | hsf
    · constructor <;> simp [processItem, hacc, hv, hvf]
    · by_cases hvf : env.verifyOk = true
      · cases hread : fsRead st.fs (pathJoin cfg.srcPath name) with
        | none =>
          constructor <;>
            simp [processItem, hacc, hv, hvf, hjpeg, hread, fsRead_fsWrite, htemp]
        | some srcData =>
          constructor <;>
            simp [processItem, hacc, hv, hvf, hjpeg, hsf, hread, fsRead_fsWrite, htemp]
      · have hvf2 : env.verifyOk = false := by
          cases hx : env.verifyOk
          · rfl
          · exact absurd hx hvf
        constructor <;> simp [processItem, hacc, hv, hvf2]

/-- C1 witness: a concrete accepted JPEG item whose container save fails
leaves the pre-existing destination file untouched. -/
theorem c1_destination_unchanged_amended_witness :
    ((processItem ⟨"s".toList, "d".toList, "au".toList⟩
        ⟨.returned ("T".toList, "D".toList, []), true, true, true, false, true, true,
         "tmp/t1".toList⟩
        "b.jpg".toList
        ⟨[("s/b.jpg".toList, .raw 1), ("d/b.jpg".toList, .raw 9)], 0, 0, none⟩).2 = none)
  ∧ fsRead (processItem ⟨"s".toList, "d".toList, "au".toList⟩
        ⟨.returned ("T".toList, "D".toList, []), true, true, true, false, true, true,
         "tmp/t1".toList⟩
        "b.jpg".toList
        ⟨[("s/b.jpg".toList, .raw 1), ("d/b.jpg".toList, .raw 9)], 0, 0, none⟩).1.fs
      (pathJoin "d".toList "b.jpg".toList) =
    fsRead [("s/b.jpg".toList, FileData.raw 1), ("d/b.jpg".toList, FileData.raw 9)]
      (pathJoin "d".toList "b.jpg".toList) :=
  c1_destination_unchanged_amended
    ⟨"s".toList, "d".toList, "au".toList⟩
    ⟨.returned ("T".toList, "D".toList, []), true, true, true, false, true, true,
     "tmp/t1".toList⟩
    "b.jpg".toList
    ⟨[("s/b.jpg".toList, .raw 1), ("d/b.jpg".toList, .raw 9)], 0, 0, none⟩
    (by decide) rfl (by decide)
    (Or.inr ⟨⟨("T".toList, "D".toList, []), rfl⟩, Or.inr rfl⟩)

/-- C6 counterexample: `Image.open` sits outside any `try` in
`filter_files_by_extension`, so a corrupt image-extension file aborts the
whole classification pass: the filesystem is untouched but the following
good JPEG is never collected — the claimed log-a-warning-and-continue
behavior does not happen. -/
theorem c6_counterexample :
    filterFiles "s".toList
      [("bad.jpg".toList, ⟨.raisesOnOpen, true⟩), ("good.jpg".toList, ⟨.jpeg, true⟩)]
      [("s/bad.jpg".toList, .raw 0), ("s/good.jpg".toList, .raw 1)] []
    = (([("s/bad.jpg".toList, .raw 0), ("s/good.jpg".toList, .raw 1)], []),
       some .openError) := by
  decide

/-- C6 (amended): when deep inspection of an image-extension file raises
(corrupt or unreadable bytes), the file is left untouched at its original
path, but the classification pass aborts at that point with the uncaught
exception — the remaining files are not visited; only a file that opens as a
recognized-but-unsupported format is logged and left in place with the pass
continuing. -/
theorem c6_corrupt_aborts_pass
    (srcPath : FPath) (env : FilterEnv) (name : FPath) (fs : FS) (acc : List FPath)
    (rest : List (FPath × FilterEnv))
    (hacc : (endswithImageExt name && fsExistsB fs (pathJoin srcPath name)) = true)
    (hbad : env.inspect = .raisesOnOpen) :
    filterFiles srcPath ((name, env) :: rest) fs acc = ((fs, acc), some .openError) ∧
    (∀ env2 : FilterEnv, env2.inspect = .otherFormat →
      filterItem srcPath env2 name fs acc = ((fs, acc), none)) := by
  constructor
  · simp [filterFiles, filterItem, hacc, hbad]
  · intro env2 h2
    simp [filterItem, hacc, h2]

/-- C6 witness: a single concrete corrupt JPEG aborts its pass leaving the
filesystem as it was, while the same file opening as an unsupported format is
skipped in place without aborting. -/
theorem c6_corrupt_aborts_pass_witness :
    (filterFiles "s".toList
      [("c.jpg".toList, ⟨.raisesOnOpen, true⟩), ("g.jpg".toList, ⟨.jpeg, true⟩)]
      [("s/c.jpg".toList, .raw 0), ("s/g.jpg".toList, .raw 1)] []
      = (([("s/c.jpg".toList, .raw 0), ("s/g.jpg".toList, .raw 1)], []),
         some .openError)) ∧
    (∀ env2 : FilterEnv, env2.inspect = .otherFormat →
      filterItem "s".toList env2 "c.jpg".toList
        [("s/c.jpg".toList, .raw 0), ("s/g.jpg".toList, .raw 1)] []
        = (([("s/c.jpg".toList, .raw 0), ("s/g.jpg".toList, .raw 1)], []), none)) :=
  c6_corrupt_aborts_pass "s".toList ⟨.raisesOnOpen, true⟩ "c.jpg".toList
    [("s/c.jpg".toList, .raw 0), ("s/g.jpg".toList, .raw 1)] []
    [("g.jpg".toList, ⟨.jpeg, true⟩)] (by decide) rfl

/-- C7: a file whose extension is not image-like is moved by the classifier
into the `Not_Images` folder under the first free candidate name — the
original name if free, else `base_(k)ext` for the smallest free `k ≥ 1`,
every earlier candidate being occupied — so the quarantined file never
overwrites an existing file in `Not_Images` and no longer exists at its
original path. -/
theorem c7_quarantine_collision_safe
    (srcPath : FPath) (env : FilterEnv) (name : FPath) (fs : FS) (acc : List FPath)
    (d : FileData)
    (hext : endswithImageExt name = false)
    (hmv : env.moveOk = true)
    (hsrc : fsRead fs (pathJoin srcPath name) = some d) :
    ∃ k,
      (filterItem srcPath env name fs acc).1.1 =
        quarantineMove fs (pathJoin srcPath notImagesName) (pathJoin srcPath name) name ∧
      quarantineTarget fs (pathJoin srcPath notImagesName) name =
        qCand (pathJoin srcPath notImagesName) (splitext name).1 (splitext name).2 name k ∧
      fsRead fs (quarantineTarget fs (pathJoin srcPath notImagesName) name) = none ∧
      (∀ j, j < k → fsExistsB fs
        (qCand (pathJoin srcPath notImagesName) (splitext name).1 (splitext name).2 name j)
          = true) ∧
      fsRead (filterItem srcPath env name fs acc).1.1
        (quarantineTarget fs (pathJoin srcPath notImagesName) name) = some d ∧
      fsRead (filterItem srcPath env name fs acc).1.1 (pathJoin srcPath name) = none := by
  have hcond : (endswithImageExt name && fsExistsB fs (pathJoin srcPath name)) = false := by
    rw [hext]
    rfl
  have hfi : (filterItem srcPath env name fs acc).1.1 =
      quarantineMove fs (pathJoin srcPath notImagesName) (pathJoin srcPath name) name := by
    simp [filterItem, hcond, hmv]
  obtain ⟨k, hk, hfree, hmin⟩ :=
    quarantineTarget_spec fs (pathJoin srcPath notImagesName) name
  have hfreeRead :
      fsRead fs (quarantineTarget fs (pathJoin srcPath notImagesName) name) = none := by
    unfold fsExistsB at hfree
    cases hx : fsRead fs (quarantineTarget fs (pathJoin srcPath notImagesName) name) with
    | none => rfl
    | some w => rw [hx] at hfree; simp at hfree
  have htne :
      quarantineTarget fs (pathJoin srcPath notImagesName) name ≠ pathJoin srcPath name := by
    intro he
    rw [he, hsrc] at hfreeRead
    exact Option.noConfusion hfreeRead
  have hqm : quarantineMove fs (pathJoin srcPath notImagesName) (pathJoin srcPath name) name =
      fsWrite (fsRemove fs (pathJoin srcPath name))
        (quarantineTarget fs (pathJoin srcPath notImagesName) name) d := by
    unfold quarantineMove
    rw [hsrc]
  refine ⟨k, hfi, hk, hfreeRead, hmin, ?_, ?_⟩
  · rw [hfi, hqm, fsRead_fsWrite, if_pos rfl]
  · rw [hfi, hqm, fsRead_fsWrite, if_neg htne, fsRead_fsRemove, if_pos rfl]

/-- C7 witness: quarantining `a.txt` while `Not_Images` already holds both
`a.txt` and `a_(1).txt` lands the file on the fresh numbered name
`a_(2).txt`, overwriting nothing and leaving the source path empty. -/
theorem c7_quarantine_collision_safe_witness :
    (∃ k,
      (filterItem "s".toList ⟨.jpeg, true⟩ "a.txt".toList
        [("s/a.txt".toList, .raw 0), ("s/Not_Images/a.txt".toList, .raw 1),
         ("s/Not_Images/a_(1).txt".toList, .raw 2)] []).1.1 =
        quarantineMove
          [("s/a.txt".toList, .raw 0), ("s/Not_Images/a.txt".toList, .raw 1),
           ("s/Not_Images/a_(1).txt".toList, .raw 2)]
          (pathJoin "s".toList notImagesName) (pathJoin "s".toList "a.txt".toList)
          "a.txt".toList ∧
      quarantineTarget
        [("s/a.txt".toList, .raw 0), ("s/Not_Images/a.txt".toList, .raw 1),
         ("s/Not_Images/a_(1).txt".toList, .raw 2)]
        (pathJoin "s".toList notImagesName) "a.txt".toList =
        qCand (pathJoin "s".toList notImagesName) (splitext "a.txt".toList).1
          (splitext "a.txt".toList).2 "a.txt".toList k ∧
      fsRead
        [("s/a.txt".toList, .raw 0), ("s/Not_Images/a.txt".toList, .raw 1),
         ("s/Not_Images/a_(1).txt".toList, .raw 2)]
        (quarantineTarget
          [("s/a.txt".toList, .raw 0), ("s/Not_Images/a.txt".toList, .raw 1),
           ("s/Not_Images/a_(1).txt".toList, .raw 2)]
          (pathJoin "s".toList notImagesName) "a.txt".toList) = none ∧
      (∀ j, j < k → fsExistsB
        [("s/a.txt".toList, .raw 0), ("s/Not_Images/a.txt".toList, .raw 1),
         ("s/Not_Images/a_(1).txt".toList, .raw 2)]
        (qCand (pathJoin "s".toList notImagesName) (splitext "a.txt".toList).1
          (splitext "a.txt".toList).2 "a.txt".toList j) = true) ∧
      fsRead (filterItem "s".toList ⟨.jpeg, true⟩ "a.txt".toList
        [("s/a.txt".toList, .raw 0), ("s/Not_Images/a.txt".toList, .raw 1),
         ("s/Not_Images/a_(1).txt".toList, .raw 2)] []).1.1
        (quarantineTarget
          [("s/a.txt".toList, .raw 0), ("s/Not_Images/a.txt".toList, .raw 1),
           ("s/Not_Images/a_(1).txt".toList, .raw 2)]
          (pathJoin "s".toList notImagesName) "a.txt".toList) = some (.raw 0) ∧
      fsRead (filterItem "s".toList ⟨.jpeg, true⟩ "a.txt".toList
        [("s/a.txt".toList, .raw 0), ("s/Not_Images/a.txt".toList, .raw 1),
         ("s/Not_Images/a_(1).txt".toList, .raw 2)] []).1.1
        (pathJoin "s".toList "a.txt".toList) = none) ∧
    quarantineTarget
      [("s/a.txt".toList, .raw 0), ("s/Not_Images/a.txt".toList, .raw 1),
       ("s/Not_Images/a_(1).txt".toList, .raw 2)]
      (pathJoin "s".toList notImagesName) "a.txt".toList =
      "s/Not_Images/a_(2).txt".toList :=
  ⟨c7_quarantine_collision_safe "s".toList ⟨.jpeg, true⟩ "a.txt".toList
    [("s/a.txt".toList, .raw 0), ("s/Not_Images/a.txt".toList, .raw 1),
     ("s/Not_Images/a_(1).txt".toList, .raw 2)] [] (.raw 0)
    (by decide) rfl (by decide), by decide⟩
